import Mathlib

/-!
Verification of the ECS tag-compliance rule (GPSEC_ECS_Tags.py).

Strings are modelled as `List Char` (named `Str` below).  Python regular
expressions are modelled by executable scanning functions that follow the
semantics of `re.search` / `re.findall` on the concrete patterns appearing
in the source:
  - `'(uai[\d]{7})'`       : `uaiSearch` (a digit is modelled as an ASCII digit);
  - `'(?:^)(prd|stg|qa|tst|dev|lab)(?:(?= )|$)'` : `envSearch` (note that a
    Python `$` also matches just before a newline that ends the string);
  - `'(\s)'`               : `spaceSearch` (ASCII whitespace);
  - `'\/(.*)'` with `re.findall` : `findallName` (`.` does not match a newline,
    scanning resumes after each non-overlapping match).
Python `str.lower` is modelled on ASCII letters via `Char.toLower`.

The compliance count in the source is *not* a structural count: it is
`str(tags_compliance).count(" 'COMPLIANT']")`, i.e. a substring count over the
Python textual representation of the checked-tags list.  This is modelled
faithfully by `pyReprStr` (Python `repr` of a string, covering quote selection
and the escapes for backslash, the chosen quote, newline, carriage return and
tab; other characters are carried verbatim, which agrees with `repr` on
printable ASCII), `pyStrList` (Python `str` of the list) and `pyCountPat`
(non-overlapping substring count).

External collaborators (boto3 listing / tagging calls) are passed in as
functions; `fetch_all_items` is modelled separately with an explicit `Client`
whose `methodAttr` field records whether the client object has an attribute
literally named `method` (a real boto3 client has none, hence `botoClient`).
-/

/-- Strings of the model: lists of characters. -/
abbrev Str := List Char

/-- The single-quote character (ASCII 39). -/
def squote : Char := Char.ofNat 39

/-- The double-quote character (ASCII 34). -/
def dquote : Char := Char.ofNat 34

/-- A resource tag, as the dictionaries `{'key': ..., 'value': ...}` returned
by `ecs.list_tags_for_resource`. -/
structure Tag where
  key : Str
  value : Str
deriving DecidableEq

/-- One entry of the list built by `tag_regex_filtering`: either the two-element
list `[key, verdict]` or the bare string `'NO_TAGS'`. -/
inductive TagCheck where
  | pair (key verdict : Str)
  | noTags
deriving DecidableEq

/-- `rdklib.ComplianceType` values used by the rule. -/
inductive Compliance where
  | COMPLIANT
  | NON_COMPLIANT
deriving DecidableEq

/-- An `rdklib.Evaluation` as constructed by the rule. -/
structure Evaluation where
  complianceType : Compliance
  resourceId : Str
  resourceType : Str
  annotationStr : Str
deriving DecidableEq

/-- Python `str.lower`, on ASCII letters. -/
def lowerStr (s : Str) : Str := s.map Char.toLower

/-- Python substring containment `needle in hay`. -/
def containsSubstr (needle : Str) : Str → Bool
  | [] => needle.isEmpty
  | c :: rest => needle.isPrefixOf (c :: rest) || containsSubstr needle rest

/-- Match of the pattern `uai[\d]{7}` anchored at the start of `s`:
the three characters `uai` followed by at least seven ASCII digits. -/
def matchUai7 (s : Str) : Bool :=
  "uai".data.isPrefixOf s && decide (7 ≤ (s.drop 3).length)
    && ((s.drop 3).take 7).all Char.isDigit

/-- `re.search('(uai[\d]{7})', s)` truthiness: the pattern matches at some
position of `s`. -/
def uaiSearch : Str → Bool
  | [] => false
  | c :: rest => matchUai7 (c :: rest) || uaiSearch rest

/-- The alternatives of the env-value pattern. -/
def envWords : List Str := ["prd", "stg", "qa", "tst", "dev", "lab"].map String.data

/-- What may follow a matched env word: the lookahead `(?= )` (next character a
space) or `$` (end of string, or a newline that ends the string). -/
def envTailOk (r : Str) : Bool :=
  decide (r = []) || decide (r.head? = some ' ') || decide (r = ['\n'])

/-- `re.search('(?:^)(prd|stg|qa|tst|dev|lab)(?:(?= )|$)', v)` truthiness:
`^` anchors the match at the start of `v`. -/
def envSearch (v : Str) : Bool :=
  envWords.any (fun w => w.isPrefixOf v && envTailOk (v.drop w.length))

/-- ASCII whitespace, the characters matched by `\s` on ASCII input. -/
def isPySpace (c : Char) : Bool :=
  c = ' ' || c = '\t' || c = '\n' || c = '\r' || c = Char.ofNat 11 || c = Char.ofNat 12

/-- `re.search('(\s)', v)` truthiness: some character of `v` is whitespace. -/
def spaceSearch (v : Str) : Bool := v.any isPySpace

/-- The verdict string `"COMPLIANT"`. -/
def compliantMark : Str := "COMPLIANT".data

/-- The verdict string `"NON_COMPLIANT"`. -/
def nonCompliantMark : Str := "NON_COMPLIANT".data

/-- The body of the `for tag in tags` loop of `tag_regex_filtering`: classify
one tag by the key-substring rules of the source. -/
def classifyTag (t : Tag) : TagCheck :=
  if containsSubstr "uai".data (lowerStr t.key) then
    (if uaiSearch t.value then .pair t.key compliantMark
     else .pair t.key nonCompliantMark)
  else if containsSubstr "env".data (lowerStr t.key) then
    (if envSearch t.value then .pair t.key compliantMark
     else .pair t.key nonCompliantMark)
  else if containsSubstr "Name".data t.key || containsSubstr "app".data (lowerStr t.key) then
    (if spaceSearch t.value then .pair t.key nonCompliantMark
     else .pair t.key compliantMark)
  else .noTags

/-- `tag_regex_filtering`: classify every tag, in input order. -/
def tag_regex_filtering (tags : List Tag) : List TagCheck := tags.map classifyTag

/-- The quote character Python `repr` chooses for a string: double quotes when
the string holds a single quote but no double quote, single quotes otherwise. -/
def pyReprQuote (s : Str) : Char :=
  if s.contains squote && !(s.contains dquote) then dquote else squote

/-- Escaping of one character inside a Python `repr` with quote `q`. -/
def pyEscapeChar (q c : Char) : Str :=
  if c = '\\' then ['\\', '\\']
  else if c = q then ['\\', q]
  else if c = '\n' then ['\\', 'n']
  else if c = '\r' then ['\\', 'r']
  else if c = '\t' then ['\\', 't']
  else [c]

/-- Python `repr` of a string (printable characters carried verbatim). -/
def pyReprStr (s : Str) : Str :=
  let q := pyReprQuote s
  q :: (s.flatMap (pyEscapeChar q)) ++ [q]

/-- Python `repr` of one entry of the checked-tags list. -/
def pyReprItem : TagCheck → Str
  | .pair k v => '[' :: (pyReprStr k ++ (',' :: ' ' :: pyReprStr v) ++ [']'])
  | .noTags => pyReprStr "NO_TAGS".data

/-- Python `", ".join` over already-rendered items. -/
def pyJoinComma : List Str → Str
  | [] => []
  | [x] => x
  | x :: y :: rest => x ++ (',' :: ' ' :: pyJoinComma (y :: rest))

/-- Python `str` of the checked-tags list. -/
def pyStrList (l : List TagCheck) : Str :=
  '[' :: (pyJoinComma (l.map pyReprItem) ++ [']'])

/-- The substring counted by the source: `" 'COMPLIANT']"`. -/
def compliantPat : Str := ' ' :: squote :: ("COMPLIANT".data ++ [squote, ']'])

/-- Scanner for `str.count`: the second argument is the number of characters
still to skip because they belong to the previous (non-overlapping) match. -/
def pyCountAux : Str → Nat → Nat
  | [], _ => 0
  | _ :: rest, skip + 1 => pyCountAux rest skip
  | c :: rest, 0 =>
    if compliantPat.isPrefixOf (c :: rest) then 1 + pyCountAux rest 12
    else pyCountAux rest 0

/-- Python `str.count` of `compliantPat`: non-overlapping occurrences, scanning
left to right (a match consumes its 13 characters). -/
def pyCountPat (s : Str) : Nat := pyCountAux s 0

/-- `str(tags_compliance).count(" 'COMPLIANT']")` of the source. -/
def complianceCount (checked : List TagCheck) : Nat := pyCountPat (pyStrList checked)

/-- `re.findall('\/(.*)', s)` as a one-pass scanner.  The first argument is the
state: `none` while looking for a `/`, `some acc` while capturing the `(.*)`
group (`acc` holds the captured characters in reverse).  A capture runs to the
next newline (`.` does not match a newline) or to the end of the string, and
scanning resumes there, so matches do not overlap. -/
def findallAuto : Option Str → Str → List Str
  | none, [] => []
  | some acc, [] => [acc.reverse]
  | none, c :: rest => if c = '/' then findallAuto (some []) rest else findallAuto none rest
  | some acc, c :: rest =>
    if c = '\n' then acc.reverse :: findallAuto none rest
    else findallAuto (some (c :: acc)) rest

/-- `re.findall('\/(.*)', s)`: at each `/`, capture the following characters up
to (excluding) the next newline or the end of the string. -/
def findallName (s : Str) : List Str := findallAuto none s

/-- `re.findall(nameregex, s)[0]`, as a partial operation: `none` models the
`IndexError` raised on an empty match list. -/
def extractName (s : Str) : Option Str := (findallName s).head?

/-- `sum(map(lambda x : 1 if '/' in x else 0, service_arn))`: the number of
`/` characters of the identifier. -/
def slashCount (s : Str) : Nat := (s.map (fun c => if c = '/' then 1 else 0)).sum

/-- Python slicing `[:255]` applied to every annotation of the source. -/
def truncate255 (s : Str) : Str := s.take 255

/-- Template `no_tags_str` instantiated. -/
def no_tags_str (nm : Str) : Str :=
  "NO Tags at all on ECS Resource (".data ++ nm ++ ")".data

/-- Template `compliant_str` instantiated. -/
def compliant_str (nm : Str) : Str :=
  "Tags are COMPLIANT on ECS Resource (".data ++ nm ++ ")".data

/-- Template `non_compliant_str` instantiated (its second argument is
`str(tags_compliance)`). -/
def non_compliant_str (nm results : Str) : Str :=
  "One or More Tags are NON_COMPLIANT on ECS Resource (".data ++ nm
    ++ "). Results: (".data ++ results ++ ")".data

/-- Template `old_arn_str` instantiated. -/
def old_arn_str (nm : Str) : Str :=
  "(".data ++ nm ++ ") uses old ARN and does not support TAGS".data

/-- The constant `minimum_number_compliant` of `evaluate_periodic`. -/
def minimum_number_compliant : Nat := 3

/-- Resource type reported for task definitions. -/
def taskDefinitionType : Str := "AWS::ECS::TaskDefinition".data

/-- Resource type reported for services. -/
def serviceType : Str := "AWS::ECS::Service".data

/-- Resource type reported for clusters. -/
def clusterType : Str := "AWS::ECS::Cluster".data

/-- `taskDefinition_eval` of the source.  The tag-fetch collaborator is the
function `tagsFor` (the single-page `list_tags_for_resource` response, see
`fetch_all_items_single_page`).  `none` models the uncaught `IndexError` of the
name extraction when the identifier holds no `/`.  Note that both compliance
branches of the source append a `NON_COMPLIANT` evaluation. -/
def taskDefinition_eval (tagsFor : Str → List Tag) (task_definition_arn : Str)
    (evaluations : List Evaluation) : Option (List Evaluation) :=
  match extractName task_definition_arn with
  | none => none
  | some nm =>
    let tags := tagsFor task_definition_arn
    if tags.length = 0 then
      some (evaluations ++
        [⟨.NON_COMPLIANT, task_definition_arn, taskDefinitionType,
          truncate255 (no_tags_str nm)⟩])
    else
      let checked := tag_regex_filtering tags
      if complianceCount checked = minimum_number_compliant then
        some (evaluations ++
          [⟨.NON_COMPLIANT, task_definition_arn, taskDefinitionType,
            truncate255 (compliant_str nm)⟩])
      else
        some (evaluations ++
          [⟨.NON_COMPLIANT, task_definition_arn, taskDefinitionType,
            truncate255 (non_compliant_str nm (pyStrList checked))⟩])

/-- `service_eval` of the source.  The second component counts the calls made
to the tag-fetch collaborator.  Note that both compliance branches of the
source append a `NON_COMPLIANT` evaluation. -/
def service_eval (tagsFor : Str → List Tag) (service_arn service_name : Str)
    (evaluations : List Evaluation) : List Evaluation × Nat :=
  if slashCount service_arn > 1 then
    let tags := tagsFor service_arn
    if tags.length = 0 then
      (evaluations ++
        [⟨.NON_COMPLIANT, service_arn, serviceType,
          truncate255 (no_tags_str service_name)⟩], 1)
    else
      let checked := tag_regex_filtering tags
      if complianceCount checked = minimum_number_compliant then
        (evaluations ++
          [⟨.NON_COMPLIANT, service_arn, serviceType,
            truncate255 (compliant_str service_name)⟩], 1)
      else
        (evaluations ++
          [⟨.NON_COMPLIANT, service_arn, serviceType,
            truncate255 (non_compliant_str service_name (pyStrList checked))⟩], 1)
  else
    (evaluations ++
      [⟨.NON_COMPLIANT, service_arn, serviceType,
        truncate255 (old_arn_str service_name)⟩], 0)

/-- `cluster_eval` of the source (the only evaluator whose matching-count
branch appends a `COMPLIANT` evaluation). -/
def cluster_eval (tagsFor : Str → List Tag) (cluster clustername : Str)
    (evaluations : List Evaluation) : List Evaluation :=
  let tags := tagsFor cluster
  if tags.length = 0 then
    evaluations ++
      [⟨.NON_COMPLIANT, cluster, clusterType, truncate255 (no_tags_str clustername)⟩]
  else
    let checked := tag_regex_filtering tags
    if complianceCount checked = minimum_number_compliant then
      evaluations ++
        [⟨.COMPLIANT, cluster, clusterType, truncate255 (compliant_str clustername)⟩]
    else
      evaluations ++
        [⟨.NON_COMPLIANT, cluster, clusterType,
          truncate255 (non_compliant_str clustername (pyStrList checked))⟩]

/-- One response of a paginated boto3 listing call: the items under the
response key, and the optional `NextToken`. -/
structure Page (α : Type) where
  items : List α
  nextToken : Option Str
deriving DecidableEq

/-- The client object passed to `fetch_all_items`.  The loop body of the
source evaluates `client.method(NextToken=next_token)`: an attribute lookup of
the literal name `method` on the client, not a call of the `method` argument.
`methodAttr` records that attribute (with the sole keyword argument
`NextToken` it receives). -/
structure Client (α : Type) where
  methodAttr : Option (Str → Page α)

/-- A real boto3 client: it exposes no attribute named `method`, so the lookup
`client.method` raises `AttributeError`. -/
def botoClient (α : Type) : Client α := ⟨none⟩

/-- The error raised by the attribute lookup `client.method` on a client
without such an attribute. -/
def attributeErrorMsg : Str :=
  "AttributeError: client object has no attribute method".data

/-- Marker for a pagination loop that never runs out of continuation tokens
within the given fuel. -/
def fuelExhaustedMsg : Str := "pagination did not terminate".data

/-- The `while next_token:` loop of `fetch_all_items`. -/
def fetchLoop {α : Type} (client : Client α) (fuel : Nat) (items : List α)
    (token : Option Str) : Except Str (List α) :=
  match token with
  | none => .ok items
  | some tok =>
    match client.methodAttr with
    | none => .error attributeErrorMsg
    | some f =>
      match fuel with
      | 0 => .error fuelExhaustedMsg
      | fuel + 1 => fetchLoop client fuel (items ++ (f tok).items) ((f tok).nextToken)

/-- `fetch_all_items` of the source.  `firstResponse` is the page returned by
the initial `method(**kwargs)` call, its items already projected through the
response key; the loop then re-fetches through the client, see `fetchLoop`. -/
def fetch_all_items {α : Type} (fuel : Nat) (client : Client α)
    (firstResponse : Page α) : Except Str (List α) :=
  fetchLoop client fuel firstResponse.items firstResponse.nextToken

/-- A single-page response makes `fetch_all_items` return exactly its items:
this justifies passing the already-fetched item lists to the evaluators and
the fleet walker below. -/
theorem fetch_all_items_single_page {α : Type} (fuel : Nat) (client : Client α)
    (items : List α) : fetch_all_items fuel client ⟨items, none⟩ = .ok items := by
  cases fuel <;> rfl

/-- The external collaborators of one `evaluate_periodic` pass, each giving
the (single-page) response of the corresponding boto3 call. -/
structure Env where
  taskDefs : List Str
  clusters : List Str
  listServices : Str → List Str
  describeServices : Str → List Str → List (Str × Str)
  tagsFor : Str → List Tag

/-- The `for task_definition_arn in task_definition_arns` loop of
`evaluate_periodic`, threading the `evaluations` accumulator. -/
def goTaskDefs (tagsFor : Str → List Tag) :
    List Str → List Evaluation → Option (List Evaluation)
  | [], evs => some evs
  | arn :: rest, evs =>
    match taskDefinition_eval tagsFor arn evs with
    | none => none
    | some evs2 => goTaskDefs tagsFor rest evs2

/-- The `for service in list_describe_services['services']` loop: each entry
is the pair (serviceArn, serviceName) of the describe response. -/
def goServices (tagsFor : Str → List Tag) :
    List (Str × Str) → List Evaluation → List Evaluation
  | [], evs => evs
  | (arn, nm) :: rest, evs => goServices tagsFor rest (service_eval tagsFor arn nm evs).1

/-- The `for cluster in list_clusters` loop: extract the cluster name, run
`cluster_eval`, then (when the cluster has services) describe and evaluate
each service. -/
def goClusters (env : Env) : List Str → List Evaluation → Option (List Evaluation)
  | [], evs => some evs
  | c :: rest, evs =>
    match extractName c with
    | none => none
    | some nm =>
      let evs1 := cluster_eval env.tagsFor c nm evs
      let svcArns := env.listServices c
      let evs2 :=
        if svcArns.length > 0 then goServices env.tagsFor (env.describeServices c svcArns) evs1
        else evs1
      goClusters env rest evs2

/-- `evaluate_periodic` of the source: all task definitions first, then per
cluster the cluster itself followed by its services.  `none` models an
uncaught exception aborting the pass. -/
def evaluate_periodic (env : Env) : Option (List Evaluation) :=
  match goTaskDefs env.tagsFor env.taskDefs [] with
  | none => none
  | some evs => goClusters env env.clusters evs

/-- Spec-side definition for comparison (the specification words the display
name as the substring after the *last* path separator). -/
def specNameAfterLastSep (s : Str) : Str :=
  (s.reverse.takeWhile (fun c => !(c = '/'))).reverse

/-- What the code computes: the substring after the *first* path separator,
up to (excluding) the next newline. -/
def afterFirstSep (s : Str) : Str :=
  ((s.dropWhile (fun c => !(c = '/'))).drop 1).takeWhile (fun c => !(c = '\n'))

/-- Closed form of a running capture: it collects the pending `acc`, the
characters up to the next newline, and scanning resumes after that run. -/
theorem findallAuto_capture (acc s) :
    findallAuto (some acc) s =
      (acc.reverse ++ s.takeWhile (fun d => !(d = '\n'))) ::
        findallAuto none ((s.dropWhile (fun d => !(d = '\n'))).drop 1) := by
  induction s generalizing acc with
  | nil => simp [findallAuto]
  | cons c rest ih =>
    by_cases hc : c = '\n'
    · subst hc
      simp [findallAuto, List.takeWhile_cons, List.dropWhile_cons]
    · simp [findallAuto, hc, List.takeWhile_cons, List.dropWhile_cons, ih (c :: acc)]

/-- The name extraction succeeds exactly on identifiers holding a `/`. -/
theorem extractName_isSome_iff (s : Str) : (extractName s).isSome = true ↔ '/' ∈ s := by
  induction s with
  | nil => simp [extractName, findallName, findallAuto]
  | cons c rest ih =>
    by_cases hc : c = '/'
    · subst hc
      simp [extractName, findallName, findallAuto, findallAuto_capture]
    · have e1 : extractName (c :: rest) = extractName rest := by
        simp [extractName, findallName, findallAuto, hc]
      rw [e1, ih]
      constructor
      · intro h
        exact List.mem_cons_of_mem c h
      · intro h
        rcases List.mem_cons.mp h with h1 | h1
        · exact absurd h1.symm hc
        · exact h1

/-- An identifier without `/` makes the name extraction raise. -/
theorem extractName_eq_none (s : Str) (h : '/' ∉ s) : extractName s = none := by
  rw [← Option.not_isSome_iff_eq_none]
  intro hs
  exact h ((extractName_isSome_iff s).mp hs)

/-- A task definition whose identifier holds no `/` aborts its evaluation. -/
theorem taskDefinition_eval_eq_none (tf : Str → List Tag) (arn : Str)
    (evs : List Evaluation) (h : '/' ∉ arn) :
    taskDefinition_eval tf arn evs = none := by
  simp [taskDefinition_eval, extractName_eq_none arn h]

/-- The task-definition loop aborts when any listed identifier holds no `/`. -/
theorem goTaskDefs_eq_none (tf : Str → List Tag) (tds : List Str) (arn : Str)
    (h1 : arn ∈ tds) (h2 : '/' ∉ arn) (evs : List Evaluation) :
    goTaskDefs tf tds evs = none := by
  induction tds generalizing evs with
  | nil => cases h1
  | cons a rest ih =>
    rcases List.mem_cons.mp h1 with rfl | hmem
    · simp [goTaskDefs, taskDefinition_eval_eq_none tf arn evs h2]
    · cases hx : taskDefinition_eval tf a evs with
      | none => simp [goTaskDefs, hx]
      | some evs2 =>
        simp [goTaskDefs, hx]
        exact ih hmem evs2

/-- The cluster loop aborts when any listed identifier holds no `/`. -/
theorem goClusters_eq_none (env : Env) (cls : List Str) (c : Str)
    (h1 : c ∈ cls) (h2 : '/' ∉ c) (evs : List Evaluation) :
    goClusters env cls evs = none := by
  induction cls generalizing evs with
  | nil => cases h1
  | cons a rest ih =>
    rcases List.mem_cons.mp h1 with rfl | hmem
    · simp [goClusters, extractName_eq_none c h2]
    · cases hx : extractName a with
      | none => simp [goClusters, hx]
      | some nm =>
        simp [goClusters, hx]
        exact ih hmem _

/-- C10: name extraction is total exactly on identifiers holding a separator;
a task-definition or cluster identifier without one aborts the whole pass
(no verdict is produced), as the `IndexError` of `re.findall(...)[0]`
propagates uncaught. -/
theorem claim_C10 :
    (∀ s : Str, (extractName s).isSome = true ↔ '/' ∈ s) ∧
    (∀ env : Env, ∀ arn ∈ env.taskDefs, '/' ∉ arn → evaluate_periodic env = none) ∧
    (∀ env : Env, ∀ c ∈ env.clusters, '/' ∉ c → evaluate_periodic env = none) := by
  refine ⟨extractName_isSome_iff, ?_, ?_⟩
  · intro env arn h1 h2
    simp [evaluate_periodic, goTaskDefs_eq_none env.tagsFor env.taskDefs arn h1 h2]
  · intro env c h1 h2
    cases hx : goTaskDefs env.tagsFor env.taskDefs [] with
    | none => simp [evaluate_periodic, hx]
    | some evs =>
      simp [evaluate_periodic, hx, goClusters_eq_none env env.clusters c h1 h2]

/-- Witness for C10 at a concrete fleet: a task definition identifier without
a separator aborts the pass. -/
theorem claim_C10_witness :
    evaluate_periodic ⟨["abc".data], [], fun _ => [], fun _ _ => [], fun _ => []⟩ = none :=
  claim_C10.2.1 ⟨["abc".data], [], fun _ => [], fun _ _ => [], fun _ => []⟩
    "abc".data (by decide) (by decide)

/-- C2 (the code contradicts the pagination contract): on a first response
carrying a continuation token, the loop body evaluates `client.method(...)`,
an attribute a boto3 client does not have, so the call raises instead of
concatenating the remaining pages; a single-page response is returned as is. -/
theorem claim_C2 :
    fetch_all_items 100 (botoClient Str) ⟨["c1".data], some "token1".data⟩ =
      .error attributeErrorMsg ∧
    fetch_all_items 100 (botoClient Str) ⟨["c1".data, "c2".data], none⟩ =
      .ok ["c1".data, "c2".data] :=
  ⟨rfl, rfl⟩

/-- C3 counterexample: on an identifier with two separators the code keeps
everything after the *first* separator, which differs from the substring after
the last separator stated by the specification. -/
theorem claim_C3_counterexample :
    extractName "svc/ab/cd".data = some "ab/cd".data ∧
    specNameAfterLastSep "svc/ab/cd".data = "cd".data ∧
    ("ab/cd".data : Str) ≠ "cd".data :=
  ⟨by decide, by decide, by decide⟩

/-- C3 (amended): for every identifier holding a separator, the short display
name is the substring after the *first* separator, up to the next newline. -/
theorem claim_C3 (s : Str) (h : '/' ∈ s) : extractName s = some (afterFirstSep s) := by
  induction s with
  | nil => cases h
  | cons c rest ih =>
    by_cases hc : c = '/'
    · subst hc
      simp [extractName, findallName, findallAuto, findallAuto_capture, afterFirstSep,
        List.dropWhile_cons]
    · have h2 : '/' ∈ rest := by
        rcases List.mem_cons.mp h with h1 | h1
        · exact absurd h1.symm hc
        · exact h1
      have e1 : extractName (c :: rest) = extractName rest := by
        simp [extractName, findallName, findallAuto, hc]
      have e2 : afterFirstSep (c :: rest) = afterFirstSep rest := by
        simp [afterFirstSep, List.dropWhile_cons, hc]
      rw [e1, e2]
      exact ih h2

/-- Witness for C3 at a concrete cluster identifier. -/
theorem claim_C3_witness :
    ('/' ∈ "cluster/FargateCluster1".data) ∧
    extractName "cluster/FargateCluster1".data =
      some (afterFirstSep "cluster/FargateCluster1".data) :=
  ⟨by decide, claim_C3 _ (by decide)⟩

/-- C4: a service identifier with fewer than two separators short-circuits to
NON_COMPLIANT with the legacy-ARN annotation and performs no tag fetch; the
tag fetch happens only for identifiers with at least two separators. -/
theorem claim_C4 :
    (∀ (tf : Str → List Tag) (arn nm : Str) (evs : List Evaluation),
      slashCount arn < 2 →
      service_eval tf arn nm evs =
        (evs ++ [⟨.NON_COMPLIANT, arn, serviceType, truncate255 (old_arn_str nm)⟩], 0)) ∧
    (∀ (tf : Str → List Tag) (arn nm : Str) (evs : List Evaluation),
      (service_eval tf arn nm evs).2 ≠ 0 → 2 ≤ slashCount arn) := by
  constructor
  · intro tf arn nm evs h
    have hgt : ¬ (slashCount arn > 1) := by omega
    simp [service_eval, hgt]
  · intro tf arn nm evs h
    by_cases hgt : slashCount arn > 1
    · omega
    · exfalso
      apply h
      simp [service_eval, hgt]

/-- Witness for C4 at the legacy service ARN of the source comment (one
separator): legacy verdict and zero tag fetches. -/
theorem claim_C4_witness :
    slashCount "arn:aws:ecs:us-east-1:123456789123:service/api".data < 2 ∧
    service_eval (fun _ => [⟨"uai".data, "uai1234567".data⟩])
        "arn:aws:ecs:us-east-1:123456789123:service/api".data "api".data [] =
      ([⟨.NON_COMPLIANT, "arn:aws:ecs:us-east-1:123456789123:service/api".data,
        serviceType, truncate255 (old_arn_str "api".data)⟩], 0) :=
  ⟨by decide, claim_C4.1 (fun _ => [⟨"uai".data, "uai1234567".data⟩])
    "arn:aws:ecs:us-east-1:123456789123:service/api".data "api".data [] (by decide)⟩

/-- C5: a fetched tag list of length zero yields NON_COMPLIANT with the
no-tags annotation, for each of the three resource kinds (for services, under
the tag-supporting identifier shape that reaches the fetch). -/
theorem claim_C5 :
    (∀ (tf : Str → List Tag) (arn nm : Str) (evs : List Evaluation),
      extractName arn = some nm → tf arn = [] →
      taskDefinition_eval tf arn evs =
        some (evs ++
          [⟨.NON_COMPLIANT, arn, taskDefinitionType, truncate255 (no_tags_str nm)⟩])) ∧
    (∀ (tf : Str → List Tag) (arn nm : Str) (evs : List Evaluation),
      1 < slashCount arn → tf arn = [] →
      service_eval tf arn nm evs =
        (evs ++ [⟨.NON_COMPLIANT, arn, serviceType, truncate255 (no_tags_str nm)⟩], 1)) ∧
    (∀ (tf : Str → List Tag) (arn nm : Str) (evs : List Evaluation),
      tf arn = [] →
      cluster_eval tf arn nm evs =
        evs ++ [⟨.NON_COMPLIANT, arn, clusterType, truncate255 (no_tags_str nm)⟩]) := by
  refine ⟨?_, ?_, ?_⟩
  · intro tf arn nm evs hx ht
    simp [taskDefinition_eval, hx, ht]
  · intro tf arn nm evs hs ht
    simp [service_eval, hs, ht]
  · intro tf arn nm evs ht
    simp [cluster_eval, ht]

/-- Witness for C5 at a concrete untagged task definition. -/
theorem claim_C5_witness :
    extractName "arn:aws:ecs:us-east-1:1:task-definition/users:1".data = some "users:1".data ∧
    taskDefinition_eval (fun _ => []) "arn:aws:ecs:us-east-1:1:task-definition/users:1".data [] =
      some [⟨.NON_COMPLIANT, "arn:aws:ecs:us-east-1:1:task-definition/users:1".data,
        taskDefinitionType, truncate255 (no_tags_str "users:1".data)⟩] :=
  ⟨by decide, claim_C5.1 (fun _ => []) "arn:aws:ecs:us-east-1:1:task-definition/users:1".data
    "users:1".data [] (by decide) (by decide)⟩

/-- C1 at a failing input (the code contradicts its own comments and the
annotation text): with exactly three compliant tags, so that the compliance
count equals `minimum_number_compliant`, the task-definition and service
evaluators append a NON_COMPLIANT evaluation carrying the "Tags are
COMPLIANT" annotation; only the cluster evaluator appends COMPLIANT. -/
theorem claim_C1 :
    complianceCount (tag_regex_filtering
      [⟨"uai".data, "uai1234567".data⟩, ⟨"env".data, "prd".data⟩,
       ⟨"Name".data, "web".data⟩]) = minimum_number_compliant ∧
    taskDefinition_eval
      (fun _ => [⟨"uai".data, "uai1234567".data⟩, ⟨"env".data, "prd".data⟩,
        ⟨"Name".data, "web".data⟩])
      "arn:aws:ecs:us-east-1:1:task-definition/users:1".data [] =
      some [⟨.NON_COMPLIANT, "arn:aws:ecs:us-east-1:1:task-definition/users:1".data,
        taskDefinitionType, truncate255 (compliant_str "users:1".data)⟩] ∧
    service_eval
      (fun _ => [⟨"uai".data, "uai1234567".data⟩, ⟨"env".data, "prd".data⟩,
        ⟨"Name".data, "web".data⟩])
      "arn:aws:ecs:us-east-1:1:service/cl/api".data "api".data [] =
      ([⟨.NON_COMPLIANT, "arn:aws:ecs:us-east-1:1:service/cl/api".data,
        serviceType, truncate255 (compliant_str "api".data)⟩], 1) ∧
    cluster_eval
      (fun _ => [⟨"uai".data, "uai1234567".data⟩, ⟨"env".data, "prd".data⟩,
        ⟨"Name".data, "web".data⟩])
      "arn:aws:ecs:us-east-1:1:cluster/FargateCluster1".data "FargateCluster1".data [] =
      [⟨.COMPLIANT, "arn:aws:ecs:us-east-1:1:cluster/FargateCluster1".data,
        clusterType, truncate255 (compliant_str "FargateCluster1".data)⟩] := by
  refine ⟨by decide, by decide, by decide, by decide⟩

/-- Characterisation of an anchored `uai[\d]{7}` match: the string starts with
`uai` followed by seven digits (and anything after). -/
theorem matchUai7_iff (s : Str) :
    matchUai7 s = true ↔
      ∃ d post : Str, s = "uai".data ++ d ++ post ∧ d.length = 7 ∧
        ∀ c ∈ d, c.isDigit = true := by
  unfold matchUai7
  simp only [Bool.and_eq_true, List.isPrefixOf_iff_prefix, decide_eq_true_eq, List.all_eq_true]
  constructor
  · rintro ⟨⟨hpre, hlen⟩, hdig⟩
    obtain ⟨t, ht⟩ := hpre
    have h3 : ("uai".data).length = 3 := rfl
    have hdrop : s.drop 3 = t := by rw [← ht, ← h3, List.drop_left]
    refine ⟨t.take 7, t.drop 7, ?_, ?_, ?_⟩
    · rw [List.append_assoc, List.take_append_drop]
      exact ht.symm
    · rw [hdrop] at hlen
      simp [List.length_take]
      omega
    · intro c hc
      apply hdig
      rw [hdrop]
      exact hc
  · rintro ⟨d, post, rfl, hlen, hdig⟩
    have h3 : ("uai".data).length = 3 := rfl
    have hdrop : ("uai".data ++ d ++ post).drop 3 = d ++ post := by
      rw [List.append_assoc, ← h3, List.drop_left]
    refine ⟨⟨⟨d ++ post, by rw [List.append_assoc]⟩, ?_⟩, ?_⟩
    · rw [hdrop]
      simp
      omega
    · intro c hc
      apply hdig
      rw [hdrop, ← hlen, List.take_left] at hc
      exact hc

/-- Characterisation of `re.search` with the `uai` pattern: somewhere in the
string, `uai` followed by seven digits. -/
theorem uaiSearch_iff (v : Str) :
    uaiSearch v = true ↔
      ∃ pre d post : Str, v = pre ++ "uai".data ++ d ++ post ∧ d.length = 7 ∧
        ∀ c ∈ d, c.isDigit = true := by
  induction v with
  | nil =>
    constructor
    · intro h
      simp [uaiSearch] at h
    · rintro ⟨pre, d, post, h, hlen, _⟩
      have := congrArg List.length h
      simp at this
      omega
  | cons c rest ih =>
    rw [uaiSearch, Bool.or_eq_true, matchUai7_iff, ih]
    constructor
    · rintro (⟨d, post, heq, hlen, hdig⟩ | ⟨pre, d, post, heq, hlen, hdig⟩)
      · exact ⟨[], d, post, by simpa using heq, hlen, hdig⟩
      · refine ⟨c :: pre, d, post, ?_, hlen, hdig⟩
        simp [heq]
    · rintro ⟨pre, d, post, heq, hlen, hdig⟩
      cases pre with
      | nil =>
        left
        exact ⟨d, post, by simpa using heq, hlen, hdig⟩
      | cons p ps =>
        right
        refine ⟨ps, d, post, ?_, hlen, hdig⟩
        have h2 := heq
        simp only [List.cons_append, List.cons.injEq] at h2
        exact h2.2

/-- C6: for a key containing `uai` case-insensitively, the classifier yields a
key/verdict pair, COMPLIANT exactly when the value holds `uai` followed by
seven digits somewhere; in particular `uai1234567` passes and `uai123`
fails. -/
theorem claim_C6 (k v : Str)
    (h : containsSubstr "uai".data (lowerStr k) = true) :
    (classifyTag ⟨k, v⟩ = .pair k compliantMark ∨
      classifyTag ⟨k, v⟩ = .pair k nonCompliantMark) ∧
    (classifyTag ⟨k, v⟩ = .pair k compliantMark ↔
      ∃ pre d post : Str, v = pre ++ "uai".data ++ d ++ post ∧ d.length = 7 ∧
        ∀ c ∈ d, c.isDigit = true) ∧
    classifyTag ⟨"uai-tag".data, "uai1234567".data⟩ = .pair "uai-tag".data compliantMark ∧
    classifyTag ⟨"uai-tag".data, "uai123".data⟩ = .pair "uai-tag".data nonCompliantMark := by
  have hcl : classifyTag ⟨k, v⟩ =
      if uaiSearch v then .pair k compliantMark else .pair k nonCompliantMark := by
    simp [classifyTag, h]
  refine ⟨?_, ?_, by decide, by decide⟩
  · rw [hcl]
    by_cases hu : uaiSearch v <;> simp [hu]
  · rw [hcl, ← uaiSearch_iff]
    by_cases hu : uaiSearch v <;>
      simp [hu, compliantMark, nonCompliantMark]

/-- Witness for C6 at the key/value of the spec example. -/
theorem claim_C6_witness :
    classifyTag ⟨"uai-tag".data, "uai1234567".data⟩ = .pair "uai-tag".data compliantMark ∨
    classifyTag ⟨"uai-tag".data, "uai1234567".data⟩ = .pair "uai-tag".data nonCompliantMark :=
  (claim_C6 "uai-tag".data "uai1234567".data (by decide)).1

/-- Spec-side definition for comparison: the value, from the string start,
equals one of the env words followed by a space or by the end of the
string. -/
def specEnvValueOk (v : Str) : Bool :=
  envWords.any (fun w => decide (v = w) || (w ++ [' ']).isPrefixOf v)

/-- Characterisation of `re.search` with the anchored env pattern: the value
starts with one of the env words, followed by a space, the end of the string,
or a single newline that ends the string (the Python `$`). -/
theorem envSearch_iff (v : Str) :
    envSearch v = true ↔
      ∃ w ∈ envWords, ∃ rest : Str, v = w ++ rest ∧
        (rest = [] ∨ rest.head? = some ' ' ∨ rest = ['\n']) := by
  unfold envSearch
  rw [List.any_eq_true]
  constructor
  · rintro ⟨w, hw, hcond⟩
    rw [Bool.and_eq_true, List.isPrefixOf_iff_prefix] at hcond
    obtain ⟨⟨rest, hrest⟩, htail⟩ := hcond
    refine ⟨w, hw, rest, hrest.symm, ?_⟩
    have hdrop : v.drop w.length = rest := by rw [← hrest, List.drop_left]
    rw [hdrop] at htail
    unfold envTailOk at htail
    simp only [Bool.or_eq_true, decide_eq_true_eq] at htail
    tauto
  · rintro ⟨w, hw, rest, rfl, hcond⟩
    refine ⟨w, hw, ?_⟩
    rw [Bool.and_eq_true, List.isPrefixOf_iff_prefix]
    refine ⟨⟨rest, rfl⟩, ?_⟩
    have hdrop : (w ++ rest).drop w.length = rest := List.drop_left _ _
    rw [hdrop]
    unfold envTailOk
    simp only [Bool.or_eq_true, decide_eq_true_eq]
    tauto

/-- C7 counterexample: the value `prd` followed by a single newline is neither
an env word alone nor an env word followed by a space, yet the code classifies
it COMPLIANT, because the Python `$` also matches before a terminal
newline. -/
theorem claim_C7_counterexample :
    classifyTag ⟨"env".data, "prd\n".data⟩ = .pair "env".data compliantMark ∧
    specEnvValueOk "prd\n".data = false :=
  ⟨by decide, by decide⟩

/-- C7 (amended): for a key containing `env` but not `uai` case-insensitively,
the classifier yields a key/verdict pair, COMPLIANT exactly when the value
starts with one of prd/stg/qa/tst/dev/lab followed by a space, the end of the
string, or a newline that ends the string; in particular `prd` passes and
`production` fails. -/
theorem claim_C7 (k v : Str)
    (h1 : containsSubstr "uai".data (lowerStr k) = false)
    (h2 : containsSubstr "env".data (lowerStr k) = true) :
    (classifyTag ⟨k, v⟩ = .pair k compliantMark ∨
      classifyTag ⟨k, v⟩ = .pair k nonCompliantMark) ∧
    (classifyTag ⟨k, v⟩ = .pair k compliantMark ↔
      ∃ w ∈ envWords, ∃ rest : Str, v = w ++ rest ∧
        (rest = [] ∨ rest.head? = some ' ' ∨ rest = ['\n'])) ∧
    classifyTag ⟨"Environment".data, "prd".data⟩ = .pair "Environment".data compliantMark ∧
    classifyTag ⟨"Environment".data, "production".data⟩ =
      .pair "Environment".data nonCompliantMark := by
  have hcl : classifyTag ⟨k, v⟩ =
      if envSearch v then .pair k compliantMark else .pair k nonCompliantMark := by
    simp [classifyTag, h1, h2]
  refine ⟨?_, ?_, by decide, by decide⟩
  · rw [hcl]
    by_cases hu : envSearch v <;> simp [hu]
  · rw [hcl, ← envSearch_iff]
    by_cases hu : envSearch v <;>
      simp [hu, compliantMark, nonCompliantMark]

/-- Witness for C7 at the key/value of the spec example. -/
theorem claim_C7_witness :
    classifyTag ⟨"Environment".data, "prd".data⟩ = .pair "Environment".data compliantMark ∨
    classifyTag ⟨"Environment".data, "prd".data⟩ = .pair "Environment".data nonCompliantMark :=
  (claim_C7 "Environment".data "prd".data (by decide) (by decide)).1

/-- Truncation bounds every annotation by 255 characters. -/
theorem truncate255_le (s : Str) : (truncate255 s).length ≤ 255 := by
  simp [truncate255, List.length_take]

/-- A successful task-definition evaluation appends exactly one evaluation,
carrying the resource identifier and a bounded annotation. -/
theorem taskDefinition_eval_some (tf : Str → List Tag) (arn : Str)
    (evs : List Evaluation) (h : '/' ∈ arn) :
    ∃ x : Evaluation, taskDefinition_eval tf arn evs = some (evs ++ [x]) ∧
      x.resourceId = arn ∧ x.annotationStr.length ≤ 255 := by
  obtain ⟨nm, hnm⟩ := Option.isSome_iff_exists.mp ((extractName_isSome_iff arn).mpr h)
  simp only [taskDefinition_eval, hnm]
  split
  · exact ⟨_, rfl, rfl, truncate255_le _⟩
  · split
    · exact ⟨_, rfl, rfl, truncate255_le _⟩
    · exact ⟨_, rfl, rfl, truncate255_le _⟩

/-- `service_eval` always appends exactly one evaluation, carrying the
resource identifier and a bounded annotation. -/
theorem service_eval_shape (tf : Str → List Tag) (arn nm : Str)
    (evs : List Evaluation) :
    ∃ x : Evaluation, (service_eval tf arn nm evs).1 = evs ++ [x] ∧
      x.resourceId = arn ∧ x.annotationStr.length ≤ 255 := by
  simp only [service_eval]
  split
  · split
    · exact ⟨_, rfl, rfl, truncate255_le _⟩
    · split
      · exact ⟨_, rfl, rfl, truncate255_le _⟩
      · exact ⟨_, rfl, rfl, truncate255_le _⟩
  · exact ⟨_, rfl, rfl, truncate255_le _⟩

/-- `cluster_eval` always appends exactly one evaluation, carrying the
resource identifier and a bounded annotation. -/
theorem cluster_eval_shape (tf : Str → List Tag) (c nm : Str)
    (evs : List Evaluation) :
    ∃ x : Evaluation, cluster_eval tf c nm evs = evs ++ [x] ∧
      x.resourceId = c ∧ x.annotationStr.length ≤ 255 := by
  simp only [cluster_eval]
  split
  · exact ⟨_, rfl, rfl, truncate255_le _⟩
  · split
    · exact ⟨_, rfl, rfl, truncate255_le _⟩
    · exact ⟨_, rfl, rfl, truncate255_le _⟩

/-- Bound propagation through a successful task-definition evaluation. -/
theorem taskDefinition_eval_bound (tf : Str → List Tag) (arn : Str)
    (evs l : List Evaluation) (h : taskDefinition_eval tf arn evs = some l)
    (hevs : ∀ e ∈ evs, e.annotationStr.length ≤ 255) :
    ∀ e ∈ l, e.annotationStr.length ≤ 255 := by
  cases hx : extractName arn with
  | none => simp [taskDefinition_eval, hx] at h
  | some nm =>
    simp only [taskDefinition_eval, hx] at h
    have step : ∀ x : Evaluation, evs ++ [x] = l → x.annotationStr.length ≤ 255 →
        ∀ e ∈ l, e.annotationStr.length ≤ 255 := by
      rintro x rfl hxa e he
      rcases List.mem_append.mp he with h1 | h1
      · exact hevs e h1
      · rw [List.mem_singleton.mp h1]
        exact hxa
    split at h
    · exact step _ (Option.some.inj h) (truncate255_le _)
    · split at h
      · exact step _ (Option.some.inj h) (truncate255_le _)
      · exact step _ (Option.some.inj h) (truncate255_le _)

/-- Bound propagation through the service loop. -/
theorem goServices_bound (tf : Str → List Tag) (svcs : List (Str × Str))
    (evs : List Evaluation) (hevs : ∀ e ∈ evs, e.annotationStr.length ≤ 255) :
    ∀ e ∈ goServices tf svcs evs, e.annotationStr.length ≤ 255 := by
  induction svcs generalizing evs with
  | nil =>
    simpa [goServices] using hevs
  | cons sv rest ih =>
    obtain ⟨arn, nm⟩ := sv
    obtain ⟨x, hx1, _, hx3⟩ := service_eval_shape tf arn nm evs
    rw [goServices, hx1]
    apply ih
    intro e he
    rcases List.mem_append.mp he with h1 | h1
    · exact hevs e h1
    · rw [List.mem_singleton.mp h1]
      exact hx3

/-- Bound propagation through the task-definition loop. -/
theorem goTaskDefs_bound (tf : Str → List Tag) (tds : List Str)
    (evs l : List Evaluation) (h : goTaskDefs tf tds evs = some l)
    (hevs : ∀ e ∈ evs, e.annotationStr.length ≤ 255) :
    ∀ e ∈ l, e.annotationStr.length ≤ 255 := by
  induction tds generalizing evs with
  | nil =>
    simp [goTaskDefs] at h
    subst h
    exact hevs
  | cons arn rest ih =>
    cases hx : taskDefinition_eval tf arn evs with
    | none => simp [goTaskDefs, hx] at h
    | some evs2 =>
      simp only [goTaskDefs, hx] at h
      exact ih evs2 h (taskDefinition_eval_bound tf arn evs evs2 hx hevs)

/-- Bound propagation through the cluster loop. -/
theorem goClusters_bound (env : Env) (cls : List Str)
    (evs l : List Evaluation) (h : goClusters env cls evs = some l)
    (hevs : ∀ e ∈ evs, e.annotationStr.length ≤ 255) :
    ∀ e ∈ l, e.annotationStr.length ≤ 255 := by
  induction cls generalizing evs with
  | nil =>
    simp [goClusters] at h
    subst h
    exact hevs
  | cons c rest ih =>
    cases hx : extractName c with
    | none => simp [goClusters, hx] at h
    | some nm =>
      simp only [goClusters, hx] at h
      obtain ⟨x, hx1, _, hx3⟩ := cluster_eval_shape env.tagsFor c nm evs
      have hevs1 : ∀ e ∈ cluster_eval env.tagsFor c nm evs, e.annotationStr.length ≤ 255 := by
        rw [hx1]
        intro e he
        rcases List.mem_append.mp he with h1 | h1
        · exact hevs e h1
        · rw [List.mem_singleton.mp h1]
          exact hx3
      by_cases hsv : (env.listServices c).length > 0
      · rw [if_pos hsv] at h
        exact ih _ h (goServices_bound env.tagsFor _ _ hevs1)
      · rw [if_neg hsv] at h
        exact ih _ h hevs1

/-- C8: every evaluation of a successful pass carries an annotation of at most
255 characters, and truncation of an over-long annotation gives exactly 255
characters. -/
theorem claim_C8 :
    (∀ (env : Env) (l : List Evaluation), evaluate_periodic env = some l →
      ∀ e ∈ l, e.annotationStr.length ≤ 255) ∧
    (∀ s : Str, 255 < s.length → (truncate255 s).length = 255) := by
  constructor
  · intro env l h
    unfold evaluate_periodic at h
    cases hx : goTaskDefs env.tagsFor env.taskDefs [] with
    | none => rw [hx] at h; cases h
    | some evs =>
      rw [hx] at h
      exact goClusters_bound env env.clusters evs l h
        (goTaskDefs_bound env.tagsFor env.taskDefs [] evs hx (by simp))
  · intro s h
    simp [truncate255, List.length_take]
    omega

set_option maxRecDepth 4000 in
/-- Witness for C8: a concrete pass's single evaluation is bounded, and a
256-character annotation is cut to exactly 255. -/
theorem claim_C8_witness :
    (⟨Compliance.NON_COMPLIANT, "td/a".data, taskDefinitionType,
      truncate255 (no_tags_str "a".data)⟩ : Evaluation).annotationStr.length ≤ 255 ∧
    (truncate255 (List.replicate 256 'x')).length = 255 := by
  constructor
  · exact claim_C8.1 ⟨["td/a".data], [], fun _ => [], fun _ _ => [], fun _ => []⟩
      [⟨Compliance.NON_COMPLIANT, "td/a".data, taskDefinitionType,
        truncate255 (no_tags_str "a".data)⟩] (by decide) _ (by decide)
  · exact claim_C8.2 (List.replicate 256 'x') (by decide)

/-- The task-definition loop appends one evaluation per listed identifier,
in listing order. -/
theorem goTaskDefs_ids (tf : Str → List Tag) (tds : List Str)
    (h : ∀ arn ∈ tds, '/' ∈ arn) (evs : List Evaluation) :
    ∃ l, goTaskDefs tf tds evs = some l ∧
      l.map (fun e => e.resourceId) = evs.map (fun e => e.resourceId) ++ tds := by
  induction tds generalizing evs with
  | nil => exact ⟨evs, by simp [goTaskDefs], by simp⟩
  | cons arn rest ih =>
    obtain ⟨x, hx1, hx2, _⟩ :=
      taskDefinition_eval_some tf arn evs (h arn (List.mem_cons_self _ _))
    obtain ⟨l, hl1, hl2⟩ :=
      ih (fun a ha => h a (List.mem_cons_of_mem _ ha)) (evs ++ [x])
    refine ⟨l, ?_, ?_⟩
    · simp only [goTaskDefs, hx1]
      exact hl1
    · rw [hl2]
      simp [hx2]
  
/-- The service loop appends one evaluation per described service, in order. -/
theorem goServices_ids (tf : Str → List Tag) (svcs : List (Str × Str))
    (evs : List Evaluation) :
    (goServices tf svcs evs).map (fun e => e.resourceId) =
      evs.map (fun e => e.resourceId) ++ svcs.map Prod.fst := by
  induction svcs generalizing evs with
  | nil => simp [goServices]
  | cons sv rest ih =>
    obtain ⟨arn, nm⟩ := sv
    obtain ⟨x, hx1, hx2, _⟩ := service_eval_shape tf arn nm evs
    rw [goServices, hx1, ih]
    simp [hx2]

/-- The cluster loop appends, per cluster in listing order, the cluster
evaluation followed by one evaluation per service of that cluster. -/
theorem goClusters_ids (env : Env) (cls : List Str)
    (h1 : ∀ c ∈ cls, '/' ∈ c)
    (h2 : ∀ c ∈ cls,
      (env.describeServices c (env.listServices c)).map Prod.fst = env.listServices c)
    (evs : List Evaluation) :
    ∃ l, goClusters env cls evs = some l ∧
      l.map (fun e => e.resourceId) =
        evs.map (fun e => e.resourceId) ++
          cls.flatMap (fun c => c :: env.listServices c) := by
  induction cls generalizing evs with
  | nil => exact ⟨evs, by simp [goClusters], by simp⟩
  | cons c rest ih =>
    obtain ⟨nm, hnm⟩ := Option.isSome_iff_exists.mp
      ((extractName_isSome_iff c).mpr (h1 c (List.mem_cons_self _ _)))
    obtain ⟨x, hx1, hx2, _⟩ := cluster_eval_shape env.tagsFor c nm evs
    have hdesc := h2 c (List.mem_cons_self _ _)
    by_cases hsv : (env.listServices c).length > 0
    · obtain ⟨l, hl1, hl2⟩ :=
        ih (fun a ha => h1 a (List.mem_cons_of_mem _ ha))
          (fun a ha => h2 a (List.mem_cons_of_mem _ ha))
          (goServices env.tagsFor (env.describeServices c (env.listServices c))
            (cluster_eval env.tagsFor c nm evs))
      refine ⟨l, ?_, ?_⟩
      · simp only [goClusters, hnm, if_pos hsv]
        exact hl1
      · rw [hl2, goServices_ids, hdesc, hx1]
        simp [hx2]
    · have hnil : env.listServices c = [] := List.length_eq_zero.mp (by omega)
      obtain ⟨l, hl1, hl2⟩ :=
        ih (fun a ha => h1 a (List.mem_cons_of_mem _ ha))
          (fun a ha => h2 a (List.mem_cons_of_mem _ ha))
          (cluster_eval env.tagsFor c nm evs)
      refine ⟨l, ?_, ?_⟩
      · simp only [goClusters, hnm, if_neg hsv]
        exact hl1
      · rw [hl2, hx1]
        simp [hx2, hnil]

/-- C9: one pass produces exactly one verdict per task definition, per cluster
and per described service, ordered as all task definitions in listing order,
then per cluster the cluster verdict followed by its services (the resource
identifiers of the batch spell out that order). -/
theorem claim_C9 (env : Env)
    (htd : ∀ arn ∈ env.taskDefs, '/' ∈ arn)
    (hcl : ∀ c ∈ env.clusters, '/' ∈ c)
    (hds : ∀ c ∈ env.clusters,
      (env.describeServices c (env.listServices c)).map Prod.fst = env.listServices c) :
    ∃ evals, evaluate_periodic env = some evals ∧
      evals.map (fun e => e.resourceId) =
        env.taskDefs ++ env.clusters.flatMap (fun c => c :: env.listServices c) := by
  obtain ⟨l1, h1, h1m⟩ := goTaskDefs_ids env.tagsFor env.taskDefs htd []
  obtain ⟨l2, h2, h2m⟩ := goClusters_ids env env.clusters hcl hds l1
  refine ⟨l2, ?_, ?_⟩
  · simp [evaluate_periodic, h1, h2]
  · rw [h2m, h1m]
    simp

set_option maxRecDepth 8000 in
/-- Witness for C9: 3 task definitions and 2 clusters holding 0 and 2
services give a batch of exactly 7 verdicts in the stated order. -/
theorem claim_C9_witness :
    ∃ evals,
      evaluate_periodic
        ⟨["td/1".data, "td/2".data, "td/3".data],
         ["cl/one".data, "cl/two".data],
         fun c => if c = "cl/two".data then ["svc/a/b1".data, "svc/a/b2".data] else [],
         fun _ arns => arns.map (fun a => (a, "svc".data)),
         fun _ => []⟩ = some evals ∧
      evals.map (fun e => e.resourceId) =
        ["td/1".data, "td/2".data, "td/3".data, "cl/one".data,
         "cl/two".data, "svc/a/b1".data, "svc/a/b2".data] :=
  claim_C9
    ⟨["td/1".data, "td/2".data, "td/3".data],
     ["cl/one".data, "cl/two".data],
     fun c => if c = "cl/two".data then ["svc/a/b1".data, "svc/a/b2".data] else [],
     fun _ arns => arns.map (fun a => (a, "svc".data)),
     fun _ => []⟩ (by decide) (by decide) (by decide)
